import Mathlib

/-!
Verification of the typed-dict coercion layer and alias enums of
`Browser/utils/data_types.py`.

The Python value universe relevant to this module is embedded as `PyVal`
(integers, floats modelled as rationals, strings, and dictionaries).
Python dictionaries are modelled as association lists with unique keys in
insertion order; `dinsert` is dictionary assignment (`d[k] = v`: replace in
place if the key exists, append otherwise) and `dlookup` is `d[k]` /
`k in d`.
-/

set_option autoImplicit false

inductive PyVal where
  | vInt   : Int → PyVal
  | vFloat : Rat → PyVal
  | vStr   : String → PyVal
  | vDict  : List (String × PyVal) → PyVal

abbrev Dict := List (String × PyVal)

/-- Python `d[k]` / `k in d` on a dictionary: first (hence, for a genuine
dictionary with unique keys, the only) binding of `k`. -/
def dlookup : Dict → String → Option PyVal
  | [], _ => none
  | kv :: rest, k => if kv.1 = k then some kv.2 else dlookup rest k

/-- The key list of a dictionary, in insertion order (`list(d.keys())`). -/
def dkeys (d : Dict) : List String := d.map (·.1)

/-- Python dictionary assignment `d[k] = v`: overwrite the binding in place
if `k` is present, append a new binding otherwise. -/
def dinsert : Dict → String → PyVal → Dict
  | [], k, v => [(k, v)]
  | kv :: rest, k, v =>
    if kv.1 = k then (k, v) :: rest else kv :: dinsert rest k v

/-- Python `str.lower()` on the ASCII range (all keys occurring in this
module are ASCII), written so that it reduces by kernel computation. -/
def pyLower (s : String) : String :=
  ⟨s.data.map Char.toLower⟩

/-- The dict comprehension `{k.lower(): v for k, v in raw.items()}` from
`convert_typed_dict` (line 24): fold the entries in order, later keys
silently overwriting earlier ones that lower to the same string. -/
def lowerDict (raw : Dict) : Dict :=
  raw.foldl (fun acc kv => dinsert acc (pyLower kv.1) kv.2) []

/-- An entry list with its keys lowered but duplicates not yet collapsed;
`lowerDict` factors through this (see `lowerDict_eq_foldInsert`). -/
def lowerKeys (raw : Dict) : Dict :=
  raw.map (fun kv => (pyLower kv.1, kv.2))

/-- The leaf types that occur as TypedDict field annotations in
`data_types.py`: `int`, `float`, `str` and `dict`. -/
inductive LeafTy where
  | tInt | tFloat | tStr | tDict
deriving DecidableEq

/-- Digit-string reading (the core of Python `int(str)` on unsigned
decimal literals), on explicit character lists so that it reduces by
kernel computation. -/
def digitsToNat? (chars : List Char) : Option Nat :=
  if chars.isEmpty then none
  else if chars.all (·.isDigit) then
    some (chars.foldl (fun n c => n * 10 + (c.toNat - 48)) 0)
  else none

/-- Python `int(str)`: optional sign followed by decimal digits; `none`
models the `ValueError` raised on any other string. -/
def pyParseInt (s : String) : Option Int :=
  match s.data with
  | '-' :: rest => (digitsToNat? rest).map (fun n => -(n : Int))
  | '+' :: rest => (digitsToNat? rest).map (fun n => (n : Int))
  | chars => (digitsToNat? chars).map (fun n => (n : Int))

/-- The decimal-literal fragment of Python `float(str)`: an integer part
and an optional fractional part, read as a rational. -/
def parseUnsignedDecimal (chars : List Char) : Option Rat :=
  match chars.splitOn '.' with
  | [i] => (digitsToNat? i).map (fun n => (n : Rat))
  | [i, f] =>
    match digitsToNat? i, digitsToNat? f with
    | some n, some m => some ((n : Rat) + (m : Rat) / ((10 : Rat) ^ f.length))
    | _, _ => none
  | _ => none

/-- Python `float(str)` on decimal literals; `none` models the
`ValueError` raised on any other string. -/
def parseDecimal (s : String) : Option Rat :=
  match s.data with
  | '-' :: rest => (parseUnsignedDecimal rest).map Neg.neg
  | '+' :: rest => parseUnsignedDecimal rest
  | chars => parseUnsignedDecimal chars

/-- Python `str(...)` rendering of an embedded value (the exact rendering of
floats and dicts is irrelevant to the properties proved here; `str` never
fails, which is what matters). -/
def pyStr : PyVal → String
  | .vInt n => toString n
  | .vFloat q => toString q
  | .vStr s => s
  | .vDict _ => "dict"

/-- The per-field constructor application `struct[key](value)` of
`convert_typed_dict` (lines 34 and 38): Python `int(...)`, `float(...)`,
`str(...)` or `dict(...)` applied to the raw value, `none` when the Python
call would raise (e.g. `int("abc")`, `float({})`). Python floats are
modelled as rationals. -/
def coerce : LeafTy → PyVal → Option PyVal
  | .tInt, .vInt n => some (.vInt n)
  | .tInt, .vFloat q => some (.vInt (if q < 0 then q.ceil else q.floor))
  | .tInt, .vStr s => (pyParseInt s).map .vInt
  | .tInt, .vDict _ => none
  | .tFloat, .vInt n => some (.vFloat (n : Rat))
  | .tFloat, .vFloat q => some (.vFloat q)
  | .tFloat, .vStr s => (parseDecimal s).map .vFloat
  | .tFloat, .vDict _ => none
  | .tStr, v => some (.vStr (pyStr v))
  | .tDict, .vDict d => some (.vDict d)
  | .tDict, _ => none

/-- One field of a TypedDict schema: its canonical name, its annotated leaf
type (`data_type.__annotations__[name]`) and whether it belongs to
`__required_keys__` (`true`) or `__optional_keys__` (`false`). -/
structure SchemaField where
  name : String
  ty : LeafTy
  required : Bool
deriving DecidableEq

/-- A TypedDict class as `convert_typed_dict` consumes it: its `__name__`
and its fields. `__required_keys__` / `__optional_keys__` are recovered by
filtering on `Field.required`; both key sets and `__annotations__` have
unique field names because they are Python class attributes. -/
structure Schema where
  name : String
  fields : List SchemaField

/-- The ways `convert_typed_dict` raises: the explicit `RuntimeError` for a
missing required key (lines 29-33, whose message names the offending field,
the TypedDict and the supplied keys), a propagated conversion error from
`struct[key](value)`, and the `AttributeError` from calling `.items()` on a
non-dictionary `params[key]`. -/
inductive ConvError where
  | missingRequiredField (field schemaName : String) (availableKeys : List String)
  | typeCoercionError (field : String) (expected : LeafTy) (rawValue : PyVal)
  | notAMapping (key : String)

/-- The first loop of `convert_typed_dict` (lines 27-34): for each required
key in order, fail if its lowered name is absent from `dictionary`,
otherwise coerce the value and store it in the typed dict under the
canonical (schema) name. -/
def requiredPass (schemaName : String) (dictionary : Dict) :
    List SchemaField → Dict → Except ConvError Dict
  | [], acc => .ok acc
  | f :: rest, acc =>
    match dlookup dictionary (pyLower f.name) with
    | none => .error (.missingRequiredField f.name schemaName (dkeys dictionary))
    | some v =>
      match coerce f.ty v with
      | none => .error (.typeCoercionError f.name f.ty v)
      | some w => requiredPass schemaName dictionary rest (dinsert acc f.name w)

/-- The second loop of `convert_typed_dict` (lines 35-38): optional keys
whose lowered name is absent are skipped; present ones are coerced and
stored under the canonical name. -/
def optionalPass (dictionary : Dict) :
    List SchemaField → Dict → Except ConvError Dict
  | [], acc => .ok acc
  | f :: rest, acc =>
    match dlookup dictionary (pyLower f.name) with
    | none => optionalPass dictionary rest acc
    | some v =>
      match coerce f.ty v with
      | none => .error (.typeCoercionError f.name f.ty v)
      | some w => optionalPass dictionary rest (dinsert acc f.name w)

/-- Lines 24-38 of `convert_typed_dict`: lower the raw record's keys, run
the required pass starting from the empty `data_type()`, then the optional
pass, yielding the typed dict. -/
def buildTyped (S : Schema) (raw : Dict) : Except ConvError Dict := do
  let dictionary := lowerDict raw
  let t1 ← requiredPass S.name dictionary (S.fields.filter (·.required)) []
  optionalPass dictionary (S.fields.filter (fun f => !f.required)) t1

/-- `convert_typed_dict(data_type, params, key)`. The Python function
mutates `params` in place (`params[key] = typed_dict`, line 39) and returns
it; the returned dictionary is therefore exactly the post-call state of
`params`, which this embedding returns functionally. When `key` is not in
`params` the function returns `params` untouched (lines 22-23). -/
def convert_typed_dict (S : Schema) (params : Dict) (key : String) :
    Except ConvError Dict :=
  match dlookup params key with
  | none => .ok params
  | some (.vDict raw) =>
    (buildTyped S raw).map (fun typed => dinsert params key (.vDict typed))
  | some _ => .error (.notAMapping key)

/-! The concrete TypedDict schemas of `data_types.py`. `total=False`
classes have only optional keys; inheritance (`GeoLocation`, `Proxy`)
contributes the parent's required keys. -/

def BoundingBox : Schema :=
  ⟨"BoundingBox",
   [⟨"x", .tFloat, false⟩, ⟨"y", .tFloat, false⟩,
    ⟨"width", .tFloat, false⟩, ⟨"height", .tFloat, false⟩]⟩

def Coordinates : Schema :=
  ⟨"Coordinates", [⟨"x", .tFloat, false⟩, ⟨"y", .tFloat, false⟩]⟩

def MouseOptionsDict : Schema :=
  ⟨"MouseOptionsDict",
   [⟨"x", .tFloat, false⟩, ⟨"y", .tFloat, false⟩, ⟨"options", .tDict, false⟩]⟩

def ViewportDimensions : Schema :=
  ⟨"ViewportDimensions", [⟨"width", .tInt, true⟩, ⟨"height", .tInt, true⟩]⟩

def HttpCredentials : Schema :=
  ⟨"HttpCredentials", [⟨"username", .tStr, true⟩, ⟨"password", .tStr, true⟩]⟩

def GeoLocation : Schema :=
  ⟨"GeoLocation",
   [⟨"longitude", .tFloat, true⟩, ⟨"latitude", .tFloat, true⟩,
    ⟨"accuracy", .tFloat, false⟩]⟩

def Proxy : Schema :=
  ⟨"Proxy",
   [⟨"server", .tStr, true⟩, ⟨"bypass", .tStr, false⟩,
    ⟨"Username", .tStr, false⟩, ⟨"password", .tStr, false⟩]⟩

/-! Alias-bearing enums. A Python `Enum` whose declaration assigns the same
value to several names creates one canonical member per distinct value: the
first name declared with that value is the member, every later name with an
equal value is an alias of that member. `AliasEnum` records the declaration
as the ordered list of `(name, value)` pairs exactly as written in
`data_types.py`. -/

structure AliasEnum (α : Type) where
  name : String
  entries : List (String × α)

/-- The accepted alias set of an enum: every declared name. -/
def aliases {α : Type} (E : AliasEnum α) : List String :=
  E.entries.map (·.1)

/-- Modelled from the spec: the error raised when a token matches no
accepted alias, carrying the offending token and the accepted aliases (the
resolver machinery itself — `Enum.__getitem__` / the keyword-argument
converter — is not part of the source fragment under `src/`). -/
structure UnknownAliasError where
  token : String
  acceptedAliases : List String
deriving DecidableEq

/-- Modelled from the spec: `resolve(rawToken) -> CanonicalMember` for an
alias enum. The entry whose name matches the token is found, then the
canonical member for its value — the first declared name with an equal
value, which is exactly Python's `Enum` aliasing rule for the enum
declarations of `data_types.py`. An unknown token yields
`UnknownAliasError`. A member is represented by its canonical
`(name, value)` pair. -/
def resolve {α : Type} (inst : DecidableEq α) (E : AliasEnum α) (token : String) :
    Except UnknownAliasError (String × α) :=
  match E.entries.find? (fun e => e.1 == token) with
  | none => .error ⟨token, aliases E⟩
  | some e =>
    match E.entries.find? (fun c => @decide (c.2 = e.2) (inst c.2 e.2)) with
    | some c => .ok c
    | none => .error ⟨token, aliases E⟩

/-- The `AssertionOperator` functional-`Enum` declaration, in source
order. -/
def AssertionOperator : AliasEnum String :=
  ⟨"AssertionOperator",
   [("equal", "=="), ("==", "=="), ("should be", "=="),
    ("inequal", "!="), ("!=", "!="), ("should not be", "!="),
    ("less than", "<"), ("<", "<"),
    ("greater than", ">"), (">", ">"),
    ("<=", "<="), (">=", ">="),
    ("contains", "*="), ("*=", "*="),
    ("starts", "^="), ("^=", "^="), ("should start with", "^="),
    ("ends", "$="), ("should end with", "$="), ("$=", "$="),
    ("matches", "$"),
    ("validate", "validate"),
    ("then", "then"), ("evaluate", "then")]⟩

/-- `SelectionType`: `ACTIVE = auto()` gives value 1, `CURRENT = ACTIVE`
re-uses that value (an alias), `ALL = auto()` gives 2 and `ANY = ALL`
aliases it. -/
def SelectionType : AliasEnum Nat :=
  ⟨"SelectionType", [("ACTIVE", 1), ("CURRENT", 1), ("ALL", 2), ("ANY", 2)]⟩

/-- `CookieType`: `dict` aliases `dictionary`, `str` aliases `string`. -/
def CookieType : AliasEnum Nat :=
  ⟨"CookieType", [("dictionary", 1), ("dict", 1), ("string", 2), ("str", 2)]⟩

/-- `SelectAttribute`: `text` aliases `label`. -/
def SelectAttribute : AliasEnum Nat :=
  ⟨"SelectAttribute", [("value", 1), ("label", 2), ("text", 2), ("index", 3)]⟩

/-! Basic lemmas about the dictionary operations. -/

@[simp]
theorem dlookup_nil (k : String) : dlookup [] k = none := rfl

theorem dlookup_cons (kv : String × PyVal) (rest : Dict) (k : String) :
    dlookup (kv :: rest) k = if kv.1 = k then some kv.2 else dlookup rest k := rfl

theorem dlookup_dinsert (d : Dict) (k : String) (v : PyVal) (k' : String) :
    dlookup (dinsert d k v) k' = if k' = k then some v else dlookup d k' := by
  induction d with
  | nil =>
    by_cases h : k' = k
    · subst h; simp [dinsert, dlookup]
    · simp [dinsert, dlookup, h, Ne.symm h]
  | cons kv rest ih =>
    by_cases h1 : kv.1 = k
    · by_cases h2 : k' = k
      · subst h2; simp [dinsert, h1, dlookup]
      · have hk : ¬k = k' := fun e => h2 e.symm
        have hkv : ¬kv.1 = k' := fun e => hk (h1.symm.trans e)
        simp [dinsert, h1, dlookup, hk, hkv, h2]
    · by_cases h2 : kv.1 = k'
      · have hk : ¬k' = k := fun e => h1 (h2.trans e)
        simp [dinsert, h1, dlookup, h2, hk]
      · simp [dinsert, h1, dlookup, h2, ih]

theorem dkeys_cons (kv : String × PyVal) (rest : Dict) :
    dkeys (kv :: rest) = kv.1 :: dkeys rest := rfl

theorem dinsert_fresh (d : Dict) (k : String) (v : PyVal) (h : k ∉ dkeys d) :
    dinsert d k v = d ++ [(k, v)] := by
  induction d with
  | nil => rfl
  | cons kv rest ih =>
    simp [dkeys_cons] at h
    have h' : ¬kv.1 = k := fun e => h.1 e.symm
    simp [dinsert, h', ih h.2]

theorem dinsert_dinsert (d : Dict) (k : String) (a b : PyVal) :
    dinsert (dinsert d k a) k b = dinsert d k b := by
  induction d with
  | nil => simp [dinsert]
  | cons kv rest ih =>
    by_cases h : kv.1 = k
    · simp [dinsert, h]
    · simp [dinsert, h, ih]

theorem dlookup_append (d1 d2 : Dict) (k : String) :
    dlookup (d1 ++ d2) k = (dlookup d1 k).or (dlookup d2 k) := by
  induction d1 with
  | nil => simp [dlookup]
  | cons kv rest ih =>
    by_cases h : kv.1 = k <;> simp [dlookup, h, ih]

theorem dkeys_append (d1 d2 : Dict) : dkeys (d1 ++ d2) = dkeys d1 ++ dkeys d2 := by
  simp [dkeys]

theorem dkeys_dinsert_fresh (d : Dict) (k : String) (v : PyVal) (h : k ∉ dkeys d) :
    dkeys (dinsert d k v) = dkeys d ++ [k] := by
  rw [dinsert_fresh d k v h, dkeys_append]; rfl

theorem lowerDict_eq_foldInsert (raw : Dict) :
    lowerDict raw = (lowerKeys raw).foldl (fun acc kv => dinsert acc kv.1 kv.2) [] := by
  simp [lowerDict, lowerKeys, List.foldl_map]

theorem lowerDict_append_single (raw : Dict) (k : String) (v : PyVal) :
    lowerDict (raw ++ [(k, v)]) = dinsert (lowerDict raw) (pyLower k) v := by
  simp [lowerDict, List.foldl_append]

/-! Characterization of the two coercion loops on successful runs. -/

theorem requiredPass_ok (sn : String) (dict : Dict) (fields : List SchemaField)
    (acc : Dict)
    (hnd : (fields.map (·.name)).Nodup)
    (hfresh : ∀ f ∈ fields, f.name ∉ dkeys acc)
    (hvals : ∀ f ∈ fields, ∃ v w,
      dlookup dict (pyLower f.name) = some v ∧ coerce f.ty v = some w) :
    ∃ out, requiredPass sn dict fields acc = .ok out ∧
      dkeys out = dkeys acc ++ fields.map (·.name) ∧
      (∀ k, k ∉ fields.map (·.name) → dlookup out k = dlookup acc k) ∧
      (∀ f ∈ fields, ∀ v, dlookup dict (pyLower f.name) = some v →
        dlookup out f.name = coerce f.ty v) := by
  induction fields generalizing acc with
  | nil => exact ⟨acc, rfl, by simp [dkeys], fun k _ => rfl, by simp⟩
  | cons f rest ih =>
    obtain ⟨v, w, hv, hw⟩ := hvals f (by simp)
    have hfreshf : f.name ∉ dkeys acc := hfresh f (by simp)
    have hstep : requiredPass sn dict (f :: rest) acc
        = requiredPass sn dict rest (dinsert acc f.name w) := by
      simp [requiredPass, hv, hw]
    have hnd' : (rest.map (·.name)).Nodup := (List.nodup_cons.mp hnd).2
    have hfname : f.name ∉ rest.map (·.name) := (List.nodup_cons.mp hnd).1
    have hacc' : dkeys (dinsert acc f.name w) = dkeys acc ++ [f.name] :=
      dkeys_dinsert_fresh acc f.name w hfreshf
    have hfresh' : ∀ g ∈ rest, g.name ∉ dkeys (dinsert acc f.name w) := by
      intro g hg
      rw [hacc']
      have hgname : g.name ∈ rest.map (·.name) := List.mem_map.mpr ⟨g, hg, rfl⟩
      have h1 : g.name ∉ dkeys acc := hfresh g (by simp [hg])
      have h2 : g.name ≠ f.name := fun e => hfname (e ▸ hgname)
      simp [h1, h2]
    obtain ⟨out, hout, hkeys, hpres, hvc⟩ :=
      ih (dinsert acc f.name w) hnd' hfresh' (fun g hg => hvals g (by simp [hg]))
    refine ⟨out, hstep ▸ hout, ?_, ?_, ?_⟩
    · rw [hkeys, hacc']; simp
    · intro k hk
      have hk1 : k ≠ f.name := fun e => hk (by simp [e])
      have hk2 : k ∉ rest.map (·.name) := fun e => hk (by simp [e])
      rw [hpres k hk2, dlookup_dinsert]
      simp [hk1]
    · intro g hg v' hv'
      rcases List.mem_cons.mp hg with e | hr
      · subst e
        rw [hpres g.name hfname, dlookup_dinsert]
        rw [hv] at hv'
        injection hv' with e'
        simp [← e', hw]
      · exact hvc g hr v' hv'

theorem optionalPass_ok (dict : Dict) (fields : List SchemaField) (acc : Dict)
    (hnd : (fields.map (·.name)).Nodup)
    (hfresh : ∀ f ∈ fields, f.name ∉ dkeys acc)
    (hvals : ∀ f ∈ fields, ∀ v,
      dlookup dict (pyLower f.name) = some v → (coerce f.ty v).isSome) :
    ∃ out, optionalPass dict fields acc = .ok out ∧
      dkeys out = dkeys acc
        ++ (fields.filter
              (fun f => (dlookup dict (pyLower f.name)).isSome)).map (·.name) ∧
      (∀ k, k ∉ fields.map (·.name) → dlookup out k = dlookup acc k) ∧
      (∀ f ∈ fields, ∀ v, dlookup dict (pyLower f.name) = some v →
        dlookup out f.name = coerce f.ty v) := by
  induction fields generalizing acc with
  | nil => exact ⟨acc, rfl, by simp [dkeys], fun k _ => rfl, by simp⟩
  | cons f rest ih =>
    have hnd' : (rest.map (·.name)).Nodup := (List.nodup_cons.mp hnd).2
    have hfname : f.name ∉ rest.map (·.name) := (List.nodup_cons.mp hnd).1
    cases hlook : dlookup dict (pyLower f.name) with
    | none =>
      have hstep : optionalPass dict (f :: rest) acc
          = optionalPass dict rest acc := by
        simp [optionalPass, hlook]
      obtain ⟨out, hout, hkeys, hpres, hvc⟩ :=
        ih acc hnd' (fun g hg => hfresh g (by simp [hg]))
          (fun g hg => hvals g (by simp [hg]))
      refine ⟨out, hstep ▸ hout, ?_, ?_, ?_⟩
      · rw [hkeys]; simp [List.filter, hlook]
      · intro k hk
        exact hpres k (fun e => hk (by simp [e]))
      · intro g hg v' hv'
        rcases List.mem_cons.mp hg with e | hr
        · subst e; rw [hlook] at hv'; exact absurd hv' (by simp)
        · exact hvc g hr v' hv'
    | some v =>
      have hcsome : (coerce f.ty v).isSome := hvals f (by simp) v hlook
      obtain ⟨w, hw⟩ := Option.isSome_iff_exists.mp hcsome
      have hfreshf : f.name ∉ dkeys acc := hfresh f (by simp)
      have hstep : optionalPass dict (f :: rest) acc
          = optionalPass dict rest (dinsert acc f.name w) := by
        simp [optionalPass, hlook, hw]
      have hacc' : dkeys (dinsert acc f.name w) = dkeys acc ++ [f.name] :=
        dkeys_dinsert_fresh acc f.name w hfreshf
      have hfresh' : ∀ g ∈ rest, g.name ∉ dkeys (dinsert acc f.name w) := by
        intro g hg
        rw [hacc']
        have hgname : g.name ∈ rest.map (·.name) := List.mem_map.mpr ⟨g, hg, rfl⟩
        have h1 : g.name ∉ dkeys acc := hfresh g (by simp [hg])
        have h2 : g.name ≠ f.name := fun e => hfname (e ▸ hgname)
        simp [h1, h2]
      obtain ⟨out, hout, hkeys, hpres, hvc⟩ :=
        ih (dinsert acc f.name w) hnd' hfresh'
          (fun g hg => hvals g (by simp [hg]))
      refine ⟨out, hstep ▸ hout, ?_, ?_, ?_⟩
      · rw [hkeys, hacc']; simp [List.filter, hlook]
      · intro k hk
        have hk1 : k ≠ f.name := fun e => hk (by simp [e])
        have hk2 : k ∉ rest.map (·.name) := fun e => hk (by simp [e])
        rw [hpres k hk2, dlookup_dinsert]
        simp [hk1]
      · intro g hg v' hv'
        rcases List.mem_cons.mp hg with e | hr
        · subst e
          rw [hpres g.name hfname, dlookup_dinsert]
          rw [hlook] at hv'
          injection hv' with e'
          simp [← e', hw]
        · exact hvc g hr v' hv'

theorem buildTyped_ok (S : Schema) (raw : Dict)
    (hnd : (S.fields.map (·.name)).Nodup)
    (hreq : ∀ f ∈ S.fields, f.required = true → ∃ v w,
      dlookup (lowerDict raw) (pyLower f.name) = some v ∧ coerce f.ty v = some w)
    (hopt : ∀ f ∈ S.fields, f.required = false → ∀ v,
      dlookup (lowerDict raw) (pyLower f.name) = some v → (coerce f.ty v).isSome) :
    ∃ typed, buildTyped S raw = .ok typed ∧
      dkeys typed = (S.fields.filter (·.required)).map (·.name)
        ++ ((S.fields.filter (fun f => !f.required)).filter
              (fun f => (dlookup (lowerDict raw) (pyLower f.name)).isSome)).map
            (·.name) ∧
      (∀ f ∈ S.fields, ∀ v, dlookup (lowerDict raw) (pyLower f.name) = some v →
        dlookup typed f.name = coerce f.ty v) := by
  have hndreq : ((S.fields.filter (·.required)).map (·.name)).Nodup :=
    hnd.sublist (List.Sublist.map _ (List.filter_sublist S.fields))
  have hndopt : ((S.fields.filter (fun f => !f.required)).map (·.name)).Nodup :=
    hnd.sublist (List.Sublist.map _ (List.filter_sublist S.fields))
  obtain ⟨t1, ht1, hkeys1, hpres1, hvals1⟩ :=
    requiredPass_ok S.name (lowerDict raw) (S.fields.filter (·.required)) []
      hndreq (by simp [dkeys])
      (fun f hf => hreq f (List.mem_filter.mp hf).1
        (by simpa using (List.mem_filter.mp hf).2))
  have hinj := List.inj_on_of_nodup_map hnd
  have hfresh2 : ∀ g ∈ S.fields.filter (fun f => !f.required),
      g.name ∉ dkeys t1 := by
    intro g hg
    rw [hkeys1]
    simp only [dkeys, List.map_nil, List.nil_append]
    intro hmem
    obtain ⟨r, hr, hrname⟩ := List.mem_map.mp hmem
    have hgopt := (List.mem_filter.mp hg).2
    have hrreq := (List.mem_filter.mp hr).2
    have hrg : r = g := hinj (List.mem_filter.mp hr).1 (List.mem_filter.mp hg).1 hrname
    subst hrg
    simp at hgopt hrreq
    rw [hrreq] at hgopt
    exact absurd hgopt (by simp)
  obtain ⟨t2, ht2, hkeys2, hpres2, hvals2⟩ :=
    optionalPass_ok (lowerDict raw) (S.fields.filter (fun f => !f.required)) t1
      hndopt hfresh2
      (fun f hf => hopt f (List.mem_filter.mp hf).1
        (by simpa using (List.mem_filter.mp hf).2))
  refine ⟨t2, ?_, ?_, ?_⟩
  · simp only [buildTyped, ht1]
    exact ht2
  · rw [hkeys2, hkeys1]
    simp [dkeys]
  · intro f hf v hv
    by_cases hr : f.required
    · have hfreq : f ∈ S.fields.filter (·.required) :=
        List.mem_filter.mpr ⟨hf, by simp [hr]⟩
      have hnotopt : f.name ∉ (S.fields.filter (fun g => !g.required)).map (·.name) := by
        intro hmem
        obtain ⟨g, hg, hgname⟩ := List.mem_map.mp hmem
        have hgf : g = f := hinj (List.mem_filter.mp hg).1 hf hgname
        subst hgf
        have := (List.mem_filter.mp hg).2
        simp [hr] at this
      rw [hpres2 f.name hnotopt]
      exact hvals1 f hfreq v hv
    · have hfopt : f ∈ S.fields.filter (fun g => !g.required) :=
        List.mem_filter.mpr ⟨hf, by simp [hr]⟩
      exact hvals2 f hfopt v hv

/-! The failure path of the required pass, and completeness of successful
results. -/

theorem requiredPass_missing (sn : String) (dict : Dict)
    (pre : List SchemaField) (fm : SchemaField) (rest : List SchemaField)
    (acc : Dict)
    (hpre : ∀ f ∈ pre, ∃ v w,
      dlookup dict (pyLower f.name) = some v ∧ coerce f.ty v = some w)
    (hmiss : dlookup dict (pyLower fm.name) = none) :
    requiredPass sn dict (pre ++ fm :: rest) acc
      = .error (.missingRequiredField fm.name sn (dkeys dict)) := by
  induction pre generalizing acc with
  | nil => simp [requiredPass, hmiss]
  | cons f pre' ih =>
    obtain ⟨v, w, hv, hw⟩ := hpre f (by simp)
    simp only [List.cons_append, requiredPass, hv, hw]
    exact ih (dinsert acc f.name w) (fun g hg => hpre g (by simp [hg]))

theorem requiredPass_complete (sn : String) (dict : Dict)
    (fields : List SchemaField) (acc out : Dict)
    (h : requiredPass sn dict fields acc = .ok out) :
    (∀ k, (dlookup acc k).isSome → (dlookup out k).isSome) ∧
    (∀ f ∈ fields, (dlookup out f.name).isSome) := by
  induction fields generalizing acc with
  | nil =>
    simp [requiredPass] at h
    subst h
    exact ⟨fun k hk => hk, by simp⟩
  | cons f rest ih =>
    cases hv : dlookup dict (pyLower f.name) with
    | none => simp [requiredPass, hv] at h
    | some v =>
      cases hw : coerce f.ty v with
      | none => simp [requiredPass, hv, hw] at h
      | some w =>
        simp only [requiredPass, hv, hw] at h
        obtain ⟨mono, compl⟩ := ih (dinsert acc f.name w) h
        refine ⟨fun k hk => mono k ?_, ?_⟩
        · rw [dlookup_dinsert]
          by_cases e : k = f.name <;> simp [e, hk]
        · intro g hg
          rcases List.mem_cons.mp hg with e | hr
          · subst e
            apply mono
            rw [dlookup_dinsert]
            simp
          · exact compl g hr

theorem optionalPass_mono (dict : Dict) (fields : List SchemaField)
    (acc out : Dict) (h : optionalPass dict fields acc = .ok out) :
    ∀ k, (dlookup acc k).isSome → (dlookup out k).isSome := by
  induction fields generalizing acc with
  | nil =>
    simp [optionalPass] at h
    subst h
    exact fun k hk => hk
  | cons f rest ih =>
    cases hv : dlookup dict (pyLower f.name) with
    | none =>
      simp only [optionalPass, hv] at h
      exact ih acc h
    | some v =>
      cases hw : coerce f.ty v with
      | none => simp [optionalPass, hv, hw] at h
      | some w =>
        simp only [optionalPass, hv, hw] at h
        intro k hk
        refine ih (dinsert acc f.name w) h k ?_
        rw [dlookup_dinsert]
        by_cases e : k = f.name <;> simp [e, hk]

/-- Shape of a successful `convert_typed_dict` call: either the key was
absent and `params` is returned untouched, or `params[key]` was a raw
dictionary that built successfully and the result is `params` with that
one key rebound to the typed dict. -/
theorem convert_ok_cases (S : Schema) (p : Dict) (k : String) (p' : Dict)
    (h : convert_typed_dict S p k = .ok p') :
    (dlookup p k = none ∧ p' = p) ∨
    (∃ raw typed, dlookup p k = some (.vDict raw) ∧
      buildTyped S raw = .ok typed ∧ p' = dinsert p k (.vDict typed)) := by
  cases hl : dlookup p k with
  | none =>
    left
    refine ⟨rfl, ?_⟩
    simp only [convert_typed_dict, hl] at h
    injection h with e
    exact e.symm
  | some v =>
    right
    cases v with
    | vDict raw =>
      simp only [convert_typed_dict, hl] at h
      cases hb : buildTyped S raw with
      | error e => rw [hb] at h; simp [Except.map] at h
      | ok typed =>
        rw [hb] at h
        simp [Except.map] at h
        exact ⟨raw, typed, rfl, hb, h.symm⟩
    | vInt n => simp [convert_typed_dict, hl] at h
    | vFloat q => simp [convert_typed_dict, hl] at h
    | vStr s => simp [convert_typed_dict, hl] at h

/-! The claims. -/

/-- C10: if the given key is not present in the params mapping,
`convert_typed_dict` returns the params mapping unchanged and performs no
validation or coercion at all — in particular it does not fail even when
the schema has required fields; missing-required-field checking only
applies when the key is present. -/
theorem C10_key_absent_returns_params (S : Schema) (params : Dict)
    (key : String) (h : dlookup params key = none) :
    convert_typed_dict S params key = .ok params := by
  simp [convert_typed_dict, h]

theorem C10_key_absent_returns_params_witness :
    dlookup [] "viewport" = none ∧
    convert_typed_dict ViewportDimensions [] "viewport" = .ok [] :=
  ⟨rfl, C10_key_absent_returns_params ViewportDimensions [] "viewport" rfl⟩

/-- C1: for every schema `S` and every raw mapping `R` (supplied under the
given key in params) that contains, up to key case, all required fields of
`S` with coercible values — and, as the spec's §8 phrasing "valid values
for every field in S" requires, whose supplied optional fields also carry
coercible values — the build succeeds and produces a typed record
containing exactly the required fields plus the supplied optional fields,
keyed by the schema's canonical field names, each value being the coercion
of the supplied raw value; no other fields appear. The `Nodup` hypothesis
is the TypedDict invariant that field names are unique. -/
theorem C1_build_success (S : Schema) (params : Dict) (key : String)
    (raw : Dict)
    (hkey : dlookup params key = some (.vDict raw))
    (hnd : (S.fields.map (·.name)).Nodup)
    (hreq : ∀ f ∈ S.fields, f.required = true → ∃ v w,
      dlookup (lowerDict raw) (pyLower f.name) = some v ∧ coerce f.ty v = some w)
    (hopt : ∀ f ∈ S.fields, f.required = false → ∀ v,
      dlookup (lowerDict raw) (pyLower f.name) = some v → (coerce f.ty v).isSome) :
    ∃ typed,
      convert_typed_dict S params key = .ok (dinsert params key (.vDict typed)) ∧
      dkeys typed = (S.fields.filter (·.required)).map (·.name)
        ++ ((S.fields.filter (fun f => !f.required)).filter
              (fun f => (dlookup (lowerDict raw) (pyLower f.name)).isSome)).map
            (·.name) ∧
      (∀ f ∈ S.fields, ∀ v, dlookup (lowerDict raw) (pyLower f.name) = some v →
        dlookup typed f.name = coerce f.ty v) := by
  obtain ⟨typed, hb, hkeys, hvals⟩ := buildTyped_ok S raw hnd hreq hopt
  exact ⟨typed, by simp [convert_typed_dict, hkey, hb, Except.map], hkeys, hvals⟩

theorem C1_build_success_witness :
    ∃ typed,
      convert_typed_dict ViewportDimensions
        [("viewport", .vDict [("width", .vInt 10), ("height", .vInt 20)])]
        "viewport"
        = .ok (dinsert
            [("viewport", .vDict [("width", .vInt 10), ("height", .vInt 20)])]
            "viewport" (.vDict typed)) ∧
      dkeys typed = ["width", "height"] := by
  obtain ⟨typed, hok, hkeys, _⟩ := C1_build_success ViewportDimensions
    [("viewport", .vDict [("width", .vInt 10), ("height", .vInt 20)])]
    "viewport" [("width", .vInt 10), ("height", .vInt 20)]
    rfl (by decide)
    (by
      intro f hf _
      fin_cases hf
      · exact ⟨.vInt 10, .vInt 10, rfl, rfl⟩
      · exact ⟨.vInt 20, .vInt 20, rfl, rfl⟩)
    (by
      intro f hf hfalse
      fin_cases hf <;> simp at hfalse)
  exact ⟨typed, hok, by rw [hkeys]; decide⟩

/-- C5: raw keys matching no schema field are ignored and never cause an
error: whenever all required fields are supplied with coercible values
(and supplied optional fields coerce), the build succeeds — with no
condition whatsoever on the remaining keys of the raw record — and every
key of the result is a schema field name, so the extra keys do not appear
in the result. -/
theorem C5_extra_keys_ignored (S : Schema) (params : Dict) (key : String)
    (raw : Dict)
    (hkey : dlookup params key = some (.vDict raw))
    (hnd : (S.fields.map (·.name)).Nodup)
    (hreq : ∀ f ∈ S.fields, f.required = true → ∃ v w,
      dlookup (lowerDict raw) (pyLower f.name) = some v ∧ coerce f.ty v = some w)
    (hopt : ∀ f ∈ S.fields, f.required = false → ∀ v,
      dlookup (lowerDict raw) (pyLower f.name) = some v → (coerce f.ty v).isSome) :
    ∃ typed,
      convert_typed_dict S params key = .ok (dinsert params key (.vDict typed)) ∧
      ∀ k ∈ dkeys typed, k ∈ S.fields.map (·.name) := by
  obtain ⟨typed, hb, hkeys, _⟩ := buildTyped_ok S raw hnd hreq hopt
  refine ⟨typed, by simp [convert_typed_dict, hkey, hb, Except.map], ?_⟩
  intro k hk
  rw [hkeys] at hk
  rcases List.mem_append.mp hk with h | h
  · obtain ⟨f, hf, rfl⟩ := List.mem_map.mp h
    exact List.mem_map.mpr ⟨f, (List.mem_filter.mp hf).1, rfl⟩
  · obtain ⟨f, hf, rfl⟩ := List.mem_map.mp h
    exact List.mem_map.mpr
      ⟨f, (List.mem_filter.mp (List.mem_filter.mp hf).1).1, rfl⟩

theorem C5_extra_keys_ignored_witness :
    ∃ typed,
      convert_typed_dict ViewportDimensions
        [("viewport", .vDict
          [("width", .vInt 10), ("height", .vInt 20), ("extra", .vStr "ignored")])]
        "viewport"
        = .ok (dinsert
            [("viewport", .vDict
              [("width", .vInt 10), ("height", .vInt 20),
               ("extra", .vStr "ignored")])]
            "viewport" (.vDict typed)) ∧
      "extra" ∉ dkeys typed := by
  obtain ⟨typed, hok, hsub⟩ := C5_extra_keys_ignored ViewportDimensions
    [("viewport", .vDict
      [("width", .vInt 10), ("height", .vInt 20), ("extra", .vStr "ignored")])]
    "viewport"
    [("width", .vInt 10), ("height", .vInt 20), ("extra", .vStr "ignored")]
    rfl (by decide)
    (by
      intro f hf _
      fin_cases hf
      · exact ⟨.vInt 10, .vInt 10, rfl, rfl⟩
      · exact ⟨.vInt 20, .vInt 20, rfl, rfl⟩)
    (by
      intro f hf hfalse
      fin_cases hf <;> simp at hfalse)
  refine ⟨typed, hok, fun hmem => ?_⟩
  have := hsub "extra" hmem
  simp [ViewportDimensions] at this

/-- Discriminates the missing-required-field failure from every other
outcome of a conversion. -/
def isMissingFieldError : Except ConvError Dict → Bool
  | .error (.missingRequiredField _ _ _) => true
  | _ => false

/-- C2 counterexample: the raw record `{"width": "abc"}` lacks the required
field `height` of `ViewportDimensions`, yet the call does not fail with the
missing-required-field error: the presence check and the coercion are
interleaved per required field (lines 27-34), so the earlier field `width`
raises its coercion error (Python `ValueError` from `int("abc")`) first. -/
theorem C2_counterexample :
    convert_typed_dict ViewportDimensions
      [("viewport", .vDict [("width", .vStr "abc")])] "viewport"
      = .error (.typeCoercionError "width" .tInt (.vStr "abc")) ∧
    isMissingFieldError
      (convert_typed_dict ViewportDimensions
        [("viewport", .vDict [("width", .vStr "abc")])] "viewport") = false :=
  ⟨rfl, rfl⟩

/-- C2 (amended): for every schema `S` and raw mapping `R` lacking a
required field of `S`, provided each required field iterated before the
first missing one is supplied with a coercible value, the build fails with
the missing-required-field error naming that first missing field (carrying
the schema name and the supplied keys), without aggregating further
errors. -/
theorem C2_missing_required_fails (S : Schema) (params : Dict) (key : String)
    (raw : Dict) (pre : List SchemaField) (fm : SchemaField)
    (rest : List SchemaField)
    (hkey : dlookup params key = some (.vDict raw))
    (hsplit : S.fields.filter (·.required) = pre ++ fm :: rest)
    (hpre : ∀ f ∈ pre, ∃ v w,
      dlookup (lowerDict raw) (pyLower f.name) = some v ∧ coerce f.ty v = some w)
    (hmiss : dlookup (lowerDict raw) (pyLower fm.name) = none) :
    convert_typed_dict S params key
      = .error (.missingRequiredField fm.name S.name (dkeys (lowerDict raw))) := by
  have hrp := requiredPass_missing S.name (lowerDict raw) pre fm rest [] hpre hmiss
  simp only [convert_typed_dict, hkey, buildTyped, hsplit, hrp]
  rfl

theorem C2_missing_required_fails_witness :
    convert_typed_dict ViewportDimensions
      [("viewport", .vDict [("width", .vInt 5)])] "viewport"
      = .error (.missingRequiredField "height" "ViewportDimensions" ["width"]) :=
  C2_missing_required_fails ViewportDimensions
    [("viewport", .vDict [("width", .vInt 5)])] "viewport"
    [("width", .vInt 5)]
    [⟨"width", .tInt, true⟩] ⟨"height", .tInt, true⟩ []
    rfl rfl
    (by
      intro f hf
      fin_cases hf
      exact ⟨.vInt 5, .vInt 5, rfl, rfl⟩)
    rfl

/-- C3: raw keys are matched to schema fields ignoring case: the typed
build depends only on the case-folded raw record — two raw records whose
entry lists agree after lowering their keys build identically — and
concretely `build({"WIDTH": 10, "Height": 20}, ViewportDimensions)`
succeeds and yields the typed record `{width: 10, height: 20}`. -/
theorem C3_case_insensitive_keys :
    (∀ (S : Schema) (raw raw' : Dict), lowerKeys raw = lowerKeys raw' →
      buildTyped S raw = buildTyped S raw') ∧
    convert_typed_dict ViewportDimensions
      [("viewport", .vDict [("WIDTH", .vInt 10), ("Height", .vInt 20)])]
      "viewport"
      = .ok [("viewport",
              .vDict [("width", .vInt 10), ("height", .vInt 20)])] := by
  refine ⟨?_, rfl⟩
  intro S raw raw' h
  have hld : lowerDict raw = lowerDict raw' := by
    rw [lowerDict_eq_foldInsert, lowerDict_eq_foldInsert, h]
  unfold buildTyped
  rw [hld]

theorem C3_case_insensitive_keys_witness :
    lowerKeys [("WIDTH", PyVal.vInt 10)] = lowerKeys [("width", PyVal.vInt 10)] ∧
    buildTyped ViewportDimensions [("WIDTH", PyVal.vInt 10)]
      = buildTyped ViewportDimensions [("width", PyVal.vInt 10)] :=
  ⟨rfl, C3_case_insensitive_keys.1 ViewportDimensions
    [("WIDTH", PyVal.vInt 10)] [("width", PyVal.vInt 10)] rfl⟩

/-- C4 counterexample: duplicate-after-fold raw keys do not make the build
fail — there is no duplicate-key check anywhere in `convert_typed_dict` —
so `build({"x": 1, "X": 2}, Coordinates)` succeeds (with the later key's
value, coerced to float), instead of failing with a `DuplicateKeyError`. -/
theorem C4_counterexample :
    convert_typed_dict Coordinates
      [("coordinates", .vDict [("x", .vInt 1), ("X", .vInt 2)])] "coordinates"
      = .ok [("coordinates", .vDict [("x", .vFloat 2)])] := rfl

/-- C4 (amended): two distinct raw keys that fold to the same key are not
an error: the dict comprehension of line 24 silently keeps the value of
the later key (for any raw record extended with one more entry, looking up
that entry's folded key yields that entry's value), and in particular
`build({"x": 1, "X": 2}, Coordinates)` succeeds yielding `{x: 2.0}`. -/
theorem C4_duplicate_keys_last_wins :
    (∀ (raw : Dict) (k : String) (v : PyVal),
      dlookup (lowerDict (raw ++ [(k, v)])) (pyLower k) = some v) ∧
    convert_typed_dict Coordinates
      [("coordinates", .vDict [("x", .vInt 1), ("X", .vInt 2)])] "coordinates"
      = .ok [("coordinates", .vDict [("x", .vFloat 2)])] := by
  refine ⟨?_, rfl⟩
  intro raw k v
  rw [lowerDict_append_single, dlookup_dinsert]
  simp

/-- C6: for every alias enum, two accepted aliases whose declared values
are equal resolve to the identical canonical member (and resolution is a
function, so repeated resolutions of one alias agree); in particular
`AssertionOperator["equal"]`, `AssertionOperator["=="]` and
`AssertionOperator["should be"]` are all the canonical equality member
`("equal", "==")`, and `SelectionType.CURRENT` is the same member as
`SelectionType.ACTIVE`. -/
theorem C6_alias_equivalence :
    (∀ (α : Type) (inst : DecidableEq α) (E : AliasEnum α) (a1 a2 : String)
      (e1 e2 : String × α),
      E.entries.find? (fun e => e.1 == a1) = some e1 →
      E.entries.find? (fun e => e.1 == a2) = some e2 →
      e1.2 = e2.2 →
      resolve inst E a1 = resolve inst E a2) ∧
    resolve instDecidableEqString AssertionOperator "equal"
      = .ok ("equal", "==") ∧
    resolve instDecidableEqString AssertionOperator "=="
      = .ok ("equal", "==") ∧
    resolve instDecidableEqString AssertionOperator "should be"
      = .ok ("equal", "==") ∧
    resolve instDecidableEqNat SelectionType "CURRENT"
      = resolve instDecidableEqNat SelectionType "ACTIVE" ∧
    resolve instDecidableEqNat SelectionType "CURRENT" = .ok ("ACTIVE", 1) := by
  refine ⟨?_, rfl, rfl, rfl, rfl, rfl⟩
  intro α inst E a1 a2 e1 e2 h1 h2 hv
  have hmem : e2 ∈ E.entries := List.mem_of_find?_eq_some h2
  have hsome : (E.entries.find? (fun c => decide (c.2 = e2.2))).isSome :=
    List.find?_isSome.mpr ⟨e2, hmem, by simp⟩
  obtain ⟨c, hc⟩ := Option.isSome_iff_exists.mp hsome
  simp only [resolve, h1, h2]
  rw [hv]
  simp only [hc]

/-- C7: for every alias enum and every token outside its accepted alias
set, resolution fails with the unknown-alias error carrying the offending
token and the accepted aliases — it never returns a member. -/
theorem C7_unknown_alias_fails (α : Type) (inst : DecidableEq α)
    (E : AliasEnum α) (token : String) (h : token ∉ aliases E) :
    resolve inst E token = .error ⟨token, aliases E⟩ := by
  have hfind : E.entries.find? (fun e => e.1 == token) = none := by
    rw [List.find?_eq_none]
    intro e he
    simp only [beq_iff_eq]
    exact fun e1 => h (e1 ▸ List.mem_map.mpr ⟨e, he, rfl⟩)
  simp only [resolve, hfind]

theorem C7_unknown_alias_fails_witness :
    "nonsense" ∉ aliases AssertionOperator ∧
    resolve instDecidableEqString AssertionOperator "nonsense"
      = .error ⟨"nonsense", aliases AssertionOperator⟩ :=
  ⟨by decide, C7_unknown_alias_fails String instDecidableEqString
    AssertionOperator "nonsense" (by decide)⟩

/-- The key list of the record stored under `k` in `params` (empty when
absent or not a dictionary); observes whether a conversion changed the
record held by `params`. -/
def recordKeys (p : Dict) (k : String) : List String :=
  match dlookup p k with
  | some (.vDict d) => dkeys d
  | _ => []

/-- C8 counterexample: `convert_typed_dict` does not leave the params
mapping unchanged: line 39 rebinds `params[key]` to the typed dict. For
`params = {"viewport": {"WIDTH": 10, "height": 20}}` the post-call params
(the returned mapping — the function mutates `params` in place and
returns it) binds `"viewport"` to a record with key `"width"`, not
`"WIDTH"`: the stored record differs from the raw one. -/
theorem C8_counterexample :
    convert_typed_dict ViewportDimensions
      [("viewport", .vDict [("WIDTH", .vInt 10), ("height", .vInt 20)])]
      "viewport"
      = .ok [("viewport",
              .vDict [("width", .vInt 10), ("height", .vInt 20)])] ∧
    recordKeys
        [("viewport", .vDict [("width", .vInt 10), ("height", .vInt 20)])]
        "viewport"
      ≠ recordKeys
        [("viewport", .vDict [("WIDTH", .vInt 10), ("height", .vInt 20)])]
        "viewport" :=
  ⟨rfl, by decide⟩

/-- C8 (amended): the conversion never mutates the raw record itself (it
is only read), and every binding of `params` other than the given key is
left unchanged by a successful call; the binding of the key itself,
however, is replaced by the typed record (line 39). -/
theorem C8_no_mutation_except_key (S : Schema) (p : Dict) (k : String)
    (p' : Dict) (h : convert_typed_dict S p k = .ok p') :
    ∀ k', k' ≠ k → dlookup p' k' = dlookup p k' := by
  intro k' hk
  rcases convert_ok_cases S p k p' h with ⟨_, rfl⟩ | ⟨raw, typed, _, _, rfl⟩
  · rfl
  · rw [dlookup_dinsert]
    simp [hk]

theorem C8_no_mutation_except_key_witness :
    convert_typed_dict ViewportDimensions
      [("other", .vInt 7),
       ("viewport", .vDict [("width", .vInt 10), ("height", .vInt 20)])]
      "viewport"
      = .ok [("other", .vInt 7),
             ("viewport", .vDict [("width", .vInt 10), ("height", .vInt 20)])] ∧
    dlookup [("other", .vInt 7),
             ("viewport", .vDict [("width", .vInt 10), ("height", .vInt 20)])]
        "other"
      = dlookup [("other", .vInt 7),
                 ("viewport", .vDict [("width", .vInt 10), ("height", .vInt 20)])]
        "other" :=
  ⟨rfl,
   C8_no_mutation_except_key ViewportDimensions
     [("other", .vInt 7),
      ("viewport", .vDict [("width", .vInt 10), ("height", .vInt 20)])]
     "viewport"
     [("other", .vInt 7),
      ("viewport", .vDict [("width", .vInt 10), ("height", .vInt 20)])]
     rfl "other" (by decide)⟩

/-- C9: a build call is atomic: a successful call either found the key
absent and returned `params` exactly as given, or rebound the key to a
complete typed record holding every required field of the schema; a
failing call raises instead of returning, so no partially coerced record
is ever stored into `params` or returned. -/
theorem C9_atomicity (S : Schema) (p : Dict) (k : String) (p' : Dict)
    (h : convert_typed_dict S p k = .ok p') :
    (dlookup p k = none ∧ p' = p) ∨
    (∃ typed, p' = dinsert p k (.vDict typed) ∧
      ∀ f ∈ S.fields, f.required = true → (dlookup typed f.name).isSome) := by
  rcases convert_ok_cases S p k p' h with ⟨hn, rfl⟩ | ⟨raw, typed, _, hb, rfl⟩
  · exact Or.inl ⟨hn, rfl⟩
  · refine Or.inr ⟨typed, rfl, ?_⟩
    intro f hf hr
    simp only [buildTyped] at hb
    cases h1 : requiredPass S.name (lowerDict raw)
        (S.fields.filter (·.required)) [] with
    | error e => rw [h1] at hb; exact Except.noConfusion hb
    | ok t1 =>
      rw [h1] at hb
      obtain ⟨_, hcompl⟩ := requiredPass_complete S.name (lowerDict raw)
        (S.fields.filter (·.required)) [] t1 h1
      have hmem : f ∈ S.fields.filter (·.required) :=
        List.mem_filter.mpr ⟨hf, by simp [hr]⟩
      exact optionalPass_mono (lowerDict raw)
        (S.fields.filter (fun g => !g.required)) t1 typed hb
        f.name (hcompl f hmem)

theorem C9_atomicity_witness :
    ((dlookup [("viewport", PyVal.vDict [("width", PyVal.vInt 10), ("height", PyVal.vInt 20)])] "viewport" = none ∧
      ([("viewport", PyVal.vDict [("width", PyVal.vInt 10), ("height", PyVal.vInt 20)])] : Dict)
        = [("viewport", PyVal.vDict [("width", PyVal.vInt 10), ("height", PyVal.vInt 20)])]) ∨
    (∃ typed,
      ([("viewport", PyVal.vDict [("width", PyVal.vInt 10), ("height", PyVal.vInt 20)])] : Dict)
        = dinsert [("viewport", PyVal.vDict [("width", PyVal.vInt 10), ("height", PyVal.vInt 20)])] "viewport" (.vDict typed) ∧
      ∀ f ∈ ViewportDimensions.fields, f.required = true →
        (dlookup typed f.name).isSome)) :=
  C9_atomicity ViewportDimensions
    [("viewport", PyVal.vDict [("width", PyVal.vInt 10), ("height", PyVal.vInt 20)])]
    "viewport"
    [("viewport", PyVal.vDict [("width", PyVal.vInt 10), ("height", PyVal.vInt 20)])]
    rfl
